import Mathlib

/-!
Shallow embedding of `src/dashboard_cloud.py` (GL Recovery Dashboard, cloud
version) and verification of the specification's claims about it.

The program loads two spreadsheets, builds code→name and code→category
dictionaries from the description file, normalizes the dump file by fixed
column positions (column 1 = GL code, column 6 = order, column 12 = amount,
with `pd.to_numeric(..., errors="coerce")` followed by `dropna`), filters the
normalized table by category and GL-code checkbox selections, aggregates by
GL code and by order, and supports a substring search over the order field.

Modelling conventions:
* A spreadsheet cell is either a value that `pd.to_numeric` coerces to a
  number (modelled as `Cell.num q` with `q : ℚ`) or a value it cannot coerce
  (modelled as `Cell.str s`).  Null/NaN cells are outside the model: tables
  are assumed fully populated, so pandas' NaN-specific behaviour (groupby key
  dropping, `count` skipping NaN) never triggers.
* pandas DataFrames are rectangular tables: a `Table` is a column count and a
  list of rows, each row a list of cells.  Column access `cellAt` totalizes
  the partial pandas column access with a default that is only reachable on
  rows narrower than the accessed index (where pandas would raise).
* Python dicts are modelled as association lists with first-match lookup and
  insert-or-overwrite insertion, exactly the observable behaviour of
  `dict(zip(...))` and `.get`.
* Sorting (`sorted(...)`, `DataFrame.sort_values`) is modelled by insertion
  sort.  The source's sort is unstable (`sort_values` defaults to quicksort)
  and the spec leaves tie order unspecified, so only sortedness and
  multiset-equality of the output are relied upon.
-/

namespace GLDash

/-- A spreadsheet cell.  `num q` models any cell value that
`pd.to_numeric(..., errors="coerce")` converts to a number (numbers and
numeric strings alike); `str s` models any value it cannot convert. -/
inductive Cell where
  | num (q : ℚ)
  | str (s : String)
deriving DecidableEq

/-- `pd.to_numeric(x, errors="coerce")`: numeric values survive, everything
else becomes NaN (modelled as `none`). -/
def toNumeric : Cell → Option ℚ
  | .num q => some q
  | .str _ => none

/-- A parsed spreadsheet: rectangular table with `ncols` columns. -/
structure Table where
  ncols : Nat
  rows : List (List Cell)

/-- Column access `row[j]`.  On a well-formed rectangular table with
`j < ncols` the default is unreachable (pandas raises there instead). -/
def cellAt (r : List Cell) (j : Nat) : Cell := r.getD j (Cell.str "")

/-- Python dict insertion semantics: overwrite the value at an existing key
(keeping its position), otherwise append the new binding at the end. -/
def dictInsert : List (Cell × Cell) → Cell → Cell → List (Cell × Cell)
  | [], k, v => [(k, v)]
  | (k0, v0) :: d, k, v =>
      if k0 = k then (k0, v) :: d else (k0, v0) :: dictInsert d k v

/-- `dict(zip(keys, vals))`: fold the pairs left to right into a dict, so a
later occurrence of a key overwrites an earlier one. -/
def dictOfPairs (ps : List (Cell × Cell)) : List (Cell × Cell) :=
  ps.foldl (fun d p => dictInsert d p.1 p.2) []

/-- Python `d[k]` as an option: first binding of `k`, if any. -/
def dictGet (d : List (Cell × Cell)) (k : Cell) : Option Cell :=
  (d.find? (fun p => p.1 = k)).map Prod.snd

/-- Python `d.get(k, default)`. -/
def dictGetD (d : List (Cell × Cell)) (k : Cell) (default : Cell) : Cell :=
  (dictGet d k).getD default

/-- An uploaded file: either it parses into a table or it is malformed
(`pd.read_excel` raises on it). -/
inductive Upload where
  | parsed (t : Table)
  | malformed

/-- `pd.read_excel` on an upload: the table, or `none` when parsing fails. -/
def read_excel : Upload → Option Table
  | .parsed t => some t
  | .malformed => none

/-- `load_gl_dump_from_upload`: returns the parsed table, or `None` plus a
user-visible error message when parsing fails. -/
def load_gl_dump_from_upload (u : Upload) : Option Table × List String :=
  match read_excel u with
  | some df => (some df, [])
  | none => (none, ["Error reading GL dump file"])

/-- `load_gl_descriptions_from_upload`: builds the code→name dict from
columns 0 and 1 and the code→category dict from columns 0 and 2 (the latter
only when the table has at least 3 columns).  Any exception — a parse
failure, or the `df.iloc[:, 1]` access on a table with fewer than 2 columns —
is caught and yields two empty dicts plus a user-visible error message. -/
def load_gl_descriptions_from_upload (u : Upload) :
    (List (Cell × Cell) × List (Cell × Cell)) × List String :=
  match read_excel u with
  | none => (([], []), ["Error reading GL Description file"])
  | some df =>
      if df.ncols < 2 then (([], []), ["Error reading GL Description file"])
      else
        ((dictOfPairs (df.rows.map (fun r => (cellAt r 0, cellAt r 1))),
          if 3 ≤ df.ncols then
            dictOfPairs (df.rows.map (fun r => (cellAt r 0, cellAt r 2)))
          else []),
         [])

/-- `get_gl_name`: `gl_dict.get(gl_code, "Unknown GL")`. -/
def get_gl_name (gl_code : Cell) (gl_dict : List (Cell × Cell)) : Cell :=
  dictGetD gl_dict gl_code (Cell.str "Unknown GL")

/-- `get_gl_category`: `gl_cat_dict.get(gl_code, "Uncategorized")`. -/
def get_gl_category (gl_code : Cell) (gl_cat_dict : List (Cell × Cell)) : Cell :=
  dictGetD gl_cat_dict gl_code (Cell.str "Uncategorized")

/-- A row of the normalized table produced by `process_gl_data`:
`[GL_Code, GL_Description, Category, Order, Amount]`. -/
structure Rec where
  GL_Code : Cell
  GL_Description : Cell
  Category : Cell
  Order : Cell
  Amount : ℚ
deriving DecidableEq

/-- One row of `process_gl_data`: columns 1/6/12 give code/order/amount, the
amount is coerced numerically (`none` on failure, making `dropna` discard the
row), and name/category are resolved through the dicts with defaults. -/
def normalizeRow (nd cd : List (Cell × Cell)) (r : List Cell) : Option Rec :=
  match toNumeric (cellAt r 12) with
  | none => none
  | some a =>
      some { GL_Code := cellAt r 1
             GL_Description := get_gl_name (cellAt r 1) nd
             Category := get_gl_category (cellAt r 1) cd
             Order := cellAt r 6
             Amount := a }

/-- `process_gl_data`: normalize every dump row, silently dropping the rows
whose amount does not coerce (the function reports nothing about drops). -/
def process_gl_data (df : Table) (nd cd : List (Cell × Cell)) : List Rec :=
  df.rows.filterMap (normalizeRow nd cd)

/-- Insertion step of the insertion sort used to model `sorted` and
`sort_values`. -/
def insertBy {α : Type} (le : α → α → Bool) (x : α) : List α → List α
  | [] => [x]
  | y :: ys => if le x y then x :: y :: ys else y :: insertBy le x ys

/-- Insertion sort by a boolean relation. -/
def sortBy {α : Type} (le : α → α → Bool) : List α → List α
  | [] => []
  | x :: xs => insertBy le x (sortBy le xs)

/-- A total order on cells used to model Python `sorted` over the checkbox
lists (numbers before strings; Python itself would raise on mixed types, and
the claims only depend on the membership of the sorted lists). -/
def cellLe : Cell → Cell → Bool
  | .num a, .num b => a ≤ b
  | .num _, .str _ => true
  | .str _, .num _ => false
  | .str a, .str b => a ≤ b

/-- `sorted(...)` on a list of cells. -/
def sortCells (l : List Cell) : List Cell := sortBy cellLe l

/-- `all_categories`: the distinct categories of the normalized table, with
the literal `"Uncategorized"` excluded, sorted. -/
def all_categories (rows : List Rec) : List Cell :=
  sortCells (((rows.map Rec.Category).dedup).filter
    (fun c => !(c = Cell.str "Uncategorized")))

/-- The empty-selection fallback: `if not selected: selected = all`. -/
def effectiveSel (sel all : List Cell) : List Cell :=
  if sel = [] then all else sel

/-- The category filter of Dashboard Home and of Query Employee (the code is
duplicated verbatim on both screens):
`processed_data[processed_data["Category"].isin(selected_categories)]`, with
the empty checkbox selection silently replaced by `all_categories`. -/
def dashboardCatFilter (rows : List Rec) (sel : List Cell) : List Rec :=
  rows.filter (fun r => r.Category ∈ effectiveSel sel (all_categories rows))

/-- `all_gls`: the distinct GL codes of the category-filtered table, sorted. -/
def all_gls (rows : List Rec) : List Cell :=
  sortCells ((rows.map Rec.GL_Code).dedup)

/-- The GL-code filter of Dashboard Home, with the empty checkbox selection
silently replaced by `all_gls`. -/
def dashboardGLFilter (rows : List Rec) (sel : List Cell) : List Rec :=
  rows.filter (fun r => r.GL_Code ∈ effectiveSel sel (all_gls rows))

/-- The grouping key of `gl_summary`:
`groupby(["GL_Code", "GL_Description", "Category"])`. -/
def glKey (r : Rec) : Cell × Cell × Cell :=
  (r.GL_Code, r.GL_Description, r.Category)

/-- A row of the by-GL aggregate:
`[GL Code, GL Description, Category, Total Amount (AED), Number of Records]`. -/
structure GLRow where
  code : Cell
  desc : Cell
  cat : Cell
  total : ℚ
  nRecords : Nat
deriving DecidableEq

/-- A row of the by-order aggregate:
`[Order/IO, Total Amount (AED), Number of GLs]`. -/
structure OrderRow where
  order : Cell
  total : ℚ
  nGLs : Nat
deriving DecidableEq

/-- `gl_summary`: group the filtered table by (code, description, category),
sum `Amount` and count records per group (`agg({"Amount": "sum", "Order":
"count"})`; with no null cells pandas `count` is the group size), then sort
descending by the summed amount. -/
def gl_summary (rows : List Rec) : List GLRow :=
  sortBy (fun a b => GLRow.total b ≤ GLRow.total a)
    (((rows.map glKey).dedup).map (fun k =>
      { code := k.1, desc := k.2.1, cat := k.2.2
        total := ((rows.filter (fun r => glKey r = k)).map Rec.Amount).sum
        nRecords := (rows.filter (fun r => glKey r = k)).length }))

/-- `order_summary`: group the filtered table by `Order`, sum `Amount` and
count records per group (`agg({"Amount": "sum", "GL_Code": "count"})`; with
no null cells pandas `count` is the group size — note it is a plain record
count, not a distinct count), then sort descending by the summed amount. -/
def order_summary (rows : List Rec) : List OrderRow :=
  sortBy (fun a b => OrderRow.total b ≤ OrderRow.total a)
    (((rows.map Rec.Order).dedup).map (fun k =>
      { order := k
        total := ((rows.filter (fun r => r.Order = k)).map Rec.Amount).sum
        nGLs := (rows.filter (fun r => r.Order = k)).length }))

/-- The top of the main app: load both uploads, keep every error message, and
compute the normalized table only under the `gl_dump is not None` guard.  The
description loader's failure value `({}, {})` passes the guard, so only a
dump-side failure stops the pipeline. -/
def appState (du dv : Upload) : Option (List Rec) × List String :=
  let (d, m1) := load_gl_dump_from_upload du
  let (dicts, m2) := load_gl_descriptions_from_upload dv
  match d with
  | none => (none, m1 ++ m2)
  | some df => (some (process_gl_data df dicts.1 dicts.2), m1 ++ m2)

/-- ASCII whitespace, as stripped by Python `str.strip()`. -/
def isSpaceChar (c : Char) : Bool :=
  c = ' ' || c = '\t' || c = '\n' || c = '\x0d' || c = '\x0b' || c = '\x0c'

/-- Strip leading and trailing whitespace from a character list. -/
def stripChars (l : List Char) : List Char :=
  ((l.dropWhile isSpaceChar).reverse.dropWhile isSpaceChar).reverse

/-- Python `s.strip()`. -/
def pyStrip (s : String) : String := String.mk (stripChars s.data)

/-- Does `sub` occur at the start of `l`? -/
def startsWithChars : List Char → List Char → Bool
  | [], _ => true
  | _ :: _, [] => false
  | a :: as, b :: bs => a = b && startsWithChars as bs

/-- Does `sub` occur anywhere in `l` as a contiguous sublist? -/
def containsSubChars (sub : List Char) : List Char → Bool
  | [] => startsWithChars sub []
  | c :: t => startsWithChars sub (c :: t) || containsSubChars sub t

/-- Case-sensitive substring containment: does `pat` occur anywhere in `s`? -/
def strContainsSub (s pat : String) : Bool := containsSubChars pat.data s.data

/-- `astype(str)` on a cell: numeric orders print as their numeral (pandas
prints an int64 column this way), others are the string itself. -/
def cellToString : Cell → String
  | .num q => toString q
  | .str s => s

/-- The regex metacharacters of Python `re`.  `str.contains` interprets its
pattern as a regex by default; the embedding models the literal-pattern
fragment, i.e. patterns free of these characters, on which a regex search is
exactly substring containment. -/
def regexMetaChars : List Char :=
  ['.', '^', '$', '*', '+', '?', '[', ']', '(', ')', '|', '\\',
   Char.ofNat 123, Char.ofNat 125]

/-- Is the pattern free of regex metacharacters (so that `str.contains` is
plain substring search on it)? -/
def isLiteralPattern (s : String) : Bool :=
  s.data.all (fun c => !(regexMetaChars.contains c))

/-- The row predicate of the query screen's search:
`filtered["Order"].astype(str).str.contains(pat, na=False)`. -/
def searchMatches (pat : String) (r : Rec) : Bool :=
  strContainsSub (cellToString r.Order) pat

/-- Outcome of pressing the search button. -/
inductive SearchOutcome where
  | inputWarning
  | noMatchWarning
  | results (rows : List Rec)
deriving DecidableEq

/-- The search handler: warn when the stripped input is empty
(`if order_input.strip():`), otherwise filter the category-filtered table by
order-substring match on the stripped input; warn when nothing matches. -/
def runSearch (rows : List Rec) (input : String) : SearchOutcome :=
  if pyStrip input = "" then .inputWarning
  else
    let hits := rows.filter (searchMatches (pyStrip input))
    if hits = [] then .noMatchWarning else .results hits

/-! ### Concrete data for counterexamples and witnesses -/

/-- A 13-column dump row with GL code 4010, order 30102204, amount 1500.50 —
the worked example of the specification. -/
def dumpRowA : List Cell :=
  [Cell.str "x", Cell.num 4010, Cell.str "x", Cell.str "x", Cell.str "x",
   Cell.str "x", Cell.num 30102204, Cell.str "x", Cell.str "x", Cell.str "x",
   Cell.str "x", Cell.str "x", Cell.num 1500]

/-- A 13-column dump row whose amount field `"N/A"` does not coerce. -/
def dumpRowBad : List Cell :=
  [Cell.str "x", Cell.num 4010, Cell.str "x", Cell.str "x", Cell.str "x",
   Cell.str "x", Cell.num 30102204, Cell.str "x", Cell.str "x", Cell.str "x",
   Cell.str "x", Cell.str "x", Cell.str "N/A"]

/-- A concrete two-row dump table. -/
def dumpTableA : Table := { ncols := 13, rows := [dumpRowA, dumpRowBad] }

/-- A description table mapping 4010 to ("Travel Recovery", "Travel"). -/
def descTableA : Table :=
  { ncols := 3
    rows := [[Cell.num 4010, Cell.str "Travel Recovery", Cell.str "Travel"]] }

/-- The normalized record arising from `dumpRowA` under `descTableA`. -/
def recA : Rec :=
  { GL_Code := Cell.num 4010, GL_Description := Cell.str "Travel Recovery"
    Category := Cell.str "Travel", Order := Cell.num 30102204
    Amount := 1500 }

/-- A normalized record with order 30103311 (same GL data). -/
def recB : Rec :=
  { GL_Code := Cell.num 4010, GL_Description := Cell.str "Travel Recovery"
    Category := Cell.str "Travel", Order := Cell.num 30103311
    Amount := 10 }

/-- A normalized record in the default category `"Uncategorized"`. -/
def recU : Rec :=
  { GL_Code := Cell.num 9999, GL_Description := Cell.str "Unknown GL"
    Category := Cell.str "Uncategorized", Order := Cell.num 30102204
    Amount := 7 }

/-- The two dictionaries built from `descTableA`. -/
def descDictsA : List (Cell × Cell) × List (Cell × Cell) :=
  (load_gl_descriptions_from_upload (Upload.parsed descTableA)).1

/-- A description table in which the key `1` occurs twice. -/
def descTableDup : Table :=
  { ncols := 3
    rows := [[Cell.num 1, Cell.str "A", Cell.str "CA"],
             [Cell.num 1, Cell.str "B", Cell.str "CB"]] }

/-- A small normalized record used for the by-order aggregation examples. -/
def recS : Rec :=
  { GL_Code := Cell.num 1, GL_Description := Cell.str "D"
    Category := Cell.str "C", Order := Cell.num 2, Amount := 10 }

/-- The single by-order aggregate row of `order_summary [recS, recS]`. -/
def orderRowS : OrderRow :=
  { order := Cell.num 2, total := 20, nGLs := 2 }

/-! ### Generic lemmas about the insertion-sort model -/

theorem mem_insertBy {α : Type} (le : α → α → Bool) (x : α) (l : List α) (y : α) :
    y ∈ insertBy le x l ↔ y = x ∨ y ∈ l := by
  induction l with
  | nil => simp [insertBy]
  | cons z zs ih =>
      by_cases h : le x z
      · simp [insertBy, h]
      · simp [insertBy, h, List.mem_cons, ih]
        tauto

theorem insertBy_perm {α : Type} (le : α → α → Bool) (x : α) (l : List α) :
    (insertBy le x l).Perm (x :: l) := by
  induction l with
  | nil => simp [insertBy]
  | cons z zs ih =>
      by_cases h : le x z
      · simp [insertBy, h]
      · simp only [insertBy, h, if_false]
        exact (ih.cons z).trans (List.Perm.swap x z zs)

theorem sortBy_perm {α : Type} (le : α → α → Bool) (l : List α) :
    (sortBy le l).Perm l := by
  induction l with
  | nil => simp [sortBy]
  | cons x xs ih => exact (insertBy_perm le x (sortBy le xs)).trans (ih.cons x)

theorem mem_sortBy {α : Type} (le : α → α → Bool) (l : List α) (y : α) :
    y ∈ sortBy le l ↔ y ∈ l := (sortBy_perm le l).mem_iff

theorem pairwise_insertBy {α : Type} (le : α → α → Bool)
    (htrans : ∀ a b c, le a b = true → le b c = true → le a c = true)
    (htot : ∀ a b, le a b = true ∨ le b a = true)
    (x : α) (l : List α) (h : l.Pairwise (fun a b => le a b = true)) :
    (insertBy le x l).Pairwise (fun a b => le a b = true) := by
  induction l with
  | nil => simp [insertBy]
  | cons z zs ih =>
      rcases List.pairwise_cons.mp h with ⟨hz, hzs⟩
      by_cases hle : le x z
      · simp only [insertBy, hle, if_true]
        refine List.pairwise_cons.mpr ⟨?_, h⟩
        intro b hb
        rcases List.mem_cons.mp hb with rfl | hb
        · exact hle
        · exact htrans x z b hle (hz b hb)
      · simp only [insertBy, hle, if_false]
        refine List.pairwise_cons.mpr ⟨?_, ih hzs⟩
        intro b hb
        rcases (mem_insertBy le x zs b).mp hb with rfl | hb
        · rcases htot z b with h' | h'
          · exact h'
          · exact absurd h' hle
        · exact hz b hb

theorem pairwise_sortBy {α : Type} (le : α → α → Bool)
    (htrans : ∀ a b c, le a b = true → le b c = true → le a c = true)
    (htot : ∀ a b, le a b = true ∨ le b a = true) (l : List α) :
    (sortBy le l).Pairwise (fun a b => le a b = true) := by
  induction l with
  | nil => simp [sortBy]
  | cons x xs ih => exact pairwise_insertBy le htrans htot x (sortBy le xs) ih

/-! ### Lemmas about the Python-dict model -/

theorem dictGet_dictInsert (d : List (Cell × Cell)) (k0 v0 k : Cell) :
    dictGet (dictInsert d k0 v0) k = if k0 = k then some v0 else dictGet d k := by
  induction d with
  | nil =>
      by_cases h : k0 = k
      · simp [dictInsert, dictGet, h]
      · simp [dictInsert, dictGet, h]
  | cons p d ih =>
      obtain ⟨kp, vp⟩ := p
      by_cases hp : kp = k0
      · subst hp
        by_cases h : kp = k
        · simp [dictInsert, dictGet, h]
        · simp [dictInsert, dictGet, h]
      · by_cases h : kp = k
        · subst h
          have hk : ¬ k0 = kp := fun hh => hp hh.symm
          simp [dictInsert, hp, dictGet, hk]
        · simp only [dictInsert, if_neg hp]
          simp only [dictGet, List.find?_cons, decide_eq_true_eq] at ih ⊢
          simp [h, ih]

theorem dictGet_foldl (ps : List (Cell × Cell)) (d : List (Cell × Cell)) (k : Cell) :
    dictGet (ps.foldl (fun acc p => dictInsert acc p.1 p.2) d) k
      = ((ps.reverse.find? (fun p => p.1 = k)).map Prod.snd).or (dictGet d k) := by
  induction ps generalizing d with
  | nil => simp
  | cons p ps ih =>
      obtain ⟨kp, vp⟩ := p
      simp only [List.foldl_cons, ih, List.reverse_cons, List.find?_append]
      by_cases h : kp = k
      · subst h
        rcases hf : List.find? (fun p => decide (p.1 = kp)) ps.reverse with _ | q
        · simp [hf, dictGet_dictInsert, Option.or]
        · simp [hf, dictGet_dictInsert, Option.or]
      · rcases hf : List.find? (fun p => decide (p.1 = k)) ps.reverse with _ | q
        · simp [hf, dictGet_dictInsert, h, Option.or]
        · simp [hf, dictGet_dictInsert, h, Option.or]

theorem dictGet_dictOfPairs (ps : List (Cell × Cell)) (k : Cell) :
    dictGet (dictOfPairs ps) k = (ps.reverse.find? (fun p => p.1 = k)).map Prod.snd := by
  have h := dictGet_foldl ps [] k
  simp only [dictOfPairs] at *
  rw [h]
  rcases hf : List.find? (fun p => decide (p.1 = k)) ps.reverse with _ | q
  · simp [hf, dictGet]
  · simp [hf]

/-! ### Summation lemmas for the groupby model -/

theorem sum_map_add {α : Type} (l : List α) (f g : α → ℚ) :
    (l.map (fun x => f x + g x)).sum = (l.map f).sum + (l.map g).sum := by
  induction l with
  | nil => simp
  | cons x xs ih => simp [ih]; ring

theorem sum_map_ite_zero {K : Type} [DecidableEq K] (c : ℚ) (k0 : K)
    (keys : List K) (h : k0 ∉ keys) :
    (keys.map (fun k => if k0 = k then c else 0)).sum = 0 := by
  induction keys with
  | nil => simp
  | cons k ks ih =>
      have hne : ¬ k0 = k := fun hh => h (hh ▸ List.mem_cons_self k ks)
      have hks : k0 ∉ ks := fun hh => h (List.mem_cons_of_mem k hh)
      simp [hne, ih hks]

theorem sum_map_ite_eq {K : Type} [DecidableEq K] (c : ℚ) (k0 : K)
    (keys : List K) (hnd : keys.Nodup) (hmem : k0 ∈ keys) :
    (keys.map (fun k => if k0 = k then c else 0)).sum = c := by
  induction keys with
  | nil => simp at hmem
  | cons k ks ih =>
      rcases List.nodup_cons.mp hnd with ⟨hk, hks⟩
      rcases List.mem_cons.mp hmem with rfl | hmem'
      · simp [sum_map_ite_zero c k0 ks hk]
      · have hne : ¬ k0 = k := fun hh => hk (hh ▸ hmem')
        simp [hne, ih hks hmem']

theorem sum_partition {K : Type} [DecidableEq K] (key : Rec → K) (keys : List K)
    (hnd : keys.Nodup) (rows : List Rec) (hcov : ∀ r ∈ rows, key r ∈ keys) :
    (keys.map (fun k => ((rows.filter (fun r => key r = k)).map Rec.Amount).sum)).sum
      = (rows.map Rec.Amount).sum := by
  induction rows with
  | nil => simp
  | cons r rs ih =>
      have hcov' : ∀ x ∈ rs, key x ∈ keys := fun x hx => hcov x (List.mem_cons_of_mem r hx)
      have hr : key r ∈ keys := hcov r (List.mem_cons_self r rs)
      have hsplit : ∀ k : K,
          ((List.filter (fun x => decide (key x = k)) (r :: rs)).map Rec.Amount).sum
            = (if key r = k then r.Amount else 0)
              + ((List.filter (fun x => decide (key x = k)) rs).map Rec.Amount).sum := by
        intro k
        by_cases h : key r = k
        · simp [List.filter_cons, h]
        · simp [List.filter_cons, h]
      calc (keys.map (fun k =>
              ((List.filter (fun x => decide (key x = k)) (r :: rs)).map Rec.Amount).sum)).sum
          = (keys.map (fun k => (if key r = k then r.Amount else 0)
              + ((List.filter (fun x => decide (key x = k)) rs).map Rec.Amount).sum)).sum := by
            exact congrArg List.sum (List.map_congr_left (fun k _ => hsplit k))
        _ = (keys.map (fun k => if key r = k then r.Amount else 0)).sum
              + (keys.map (fun k =>
                  ((List.filter (fun x => decide (key x = k)) rs).map Rec.Amount).sum)).sum :=
            sum_map_add keys _ _
        _ = r.Amount + (rs.map Rec.Amount).sum := by
            rw [sum_map_ite_eq r.Amount (key r) keys hnd hr, ih hcov']
        _ = ((r :: rs).map Rec.Amount).sum := by simp

/-! ### Claim theorems -/

/-- C3: for every input dump table, `process_gl_data` keeps exactly the rows
whose amount field (column index 12) coerces to a number, in order and with
their normalized field values, and drops all the others.  Every aggregate is
computed from this output, so dropped rows are absent from every aggregate;
the function returns only the table, reporting nothing about the drops. -/
theorem nonnumeric_rows_dropped (df : Table) (nd cd : List (Cell × Cell)) :
    process_gl_data df nd cd
      = (df.rows.filter (fun r => (toNumeric (cellAt r 12)).isSome)).map
          (fun r =>
            { GL_Code := cellAt r 1
              GL_Description := get_gl_name (cellAt r 1) nd
              Category := get_gl_category (cellAt r 1) cd
              Order := cellAt r 6
              Amount := (toNumeric (cellAt r 12)).getD 0 }) := by
  obtain ⟨n, rows⟩ := df
  simp only [process_gl_data]
  induction rows with
  | nil => rfl
  | cons r rs ih =>
      simp only [List.filterMap_cons, List.filter_cons]
      cases h : toNumeric (cellAt r 12) with
      | none => simpa [normalizeRow, h] using ih
      | some a => simpa [normalizeRow, h] using ih

/-- C4: every row of the normalized table has `Category` equal to the mapped
category of its GL code when the code is a key of the category dict and to
the literal `"Uncategorized"` otherwise, and likewise `GL_Description` equal
to the mapped name or to the literal `"Unknown GL"`; so both fields always
resolve to a value. -/
theorem category_description_defaults (df : Table) (nd cd : List (Cell × Cell)) :
    ∀ r ∈ process_gl_data df nd cd,
      ((∃ v, dictGet cd r.GL_Code = some v ∧ r.Category = v) ∨
        (dictGet cd r.GL_Code = none ∧ r.Category = Cell.str "Uncategorized")) ∧
      ((∃ v, dictGet nd r.GL_Code = some v ∧ r.GL_Description = v) ∨
        (dictGet nd r.GL_Code = none ∧ r.GL_Description = Cell.str "Unknown GL")) := by
  intro r hr
  simp only [process_gl_data, List.mem_filterMap] at hr
  obtain ⟨row, _, hrow⟩ := hr
  simp only [normalizeRow] at hrow
  cases h : toNumeric (cellAt row 12) with
  | none => rw [h] at hrow; cases hrow
  | some a =>
      rw [h] at hrow
      obtain rfl := Option.some.inj hrow
      constructor
      · rcases hc : dictGet cd (cellAt row 1) with _ | v
        · right; exact ⟨rfl, by simp [get_gl_category, dictGetD, hc]⟩
        · left; exact ⟨v, rfl, by simp [get_gl_category, dictGetD, hc]⟩
      · rcases hn : dictGet nd (cellAt row 1) with _ | v
        · right; exact ⟨rfl, by simp [get_gl_name, dictGetD, hn]⟩
        · left; exact ⟨v, rfl, by simp [get_gl_name, dictGetD, hn]⟩

/-- C4 witness: the spec's worked example — dump row (4010, 30102204, 1500)
with description row (4010, "Travel Recovery", "Travel") — resolves both
fields through the mappings. -/
theorem category_description_defaults_witness :
    ((∃ v, dictGet descDictsA.2 recA.GL_Code = some v ∧ recA.Category = v) ∨
      (dictGet descDictsA.2 recA.GL_Code = none ∧
        recA.Category = Cell.str "Uncategorized")) ∧
    ((∃ v, dictGet descDictsA.1 recA.GL_Code = some v ∧ recA.GL_Description = v) ∨
      (dictGet descDictsA.1 recA.GL_Code = none ∧
        recA.GL_Description = Cell.str "Unknown GL")) :=
  category_description_defaults dumpTableA descDictsA.1 descDictsA.2 recA (by decide)

/-- C6: the by-GL aggregation conserves the total amount — the sum of the
`Total Amount (AED)` column of `gl_summary` over any filtered table equals
the sum of `Amount` over that table. -/
theorem gl_summary_conserves_amount (rows : List Rec) :
    ((gl_summary rows).map GLRow.total).sum = (rows.map Rec.Amount).sum := by
  simp only [gl_summary]
  rw [List.Perm.sum_eq ((sortBy_perm _ _).map GLRow.total), List.map_map]
  exact sum_partition glKey ((rows.map glKey).dedup) (List.nodup_dedup _) rows
    (fun r hr => List.mem_dedup.mpr (List.mem_map_of_mem glKey hr))

/-- C10 counterexample: on a normalized table holding one `"Uncategorized"`
row, the category filter with the empty selection returns the empty table,
not the input table — the category filter with empty selection is not the
identity. -/
theorem empty_selection_not_identity_on_categories :
    dashboardCatFilter [recU] [] = [] ∧ [recU] ≠ ([] : List Rec) := by
  constructor
  · decide
  · decide

/-- C10 (amended): deselecting every checkbox yields the same filtered table
as selecting the full checkbox list, on both the category and the GL-code
dimension; for GL codes this equals the unfiltered input table, while for
categories it still excludes `"Uncategorized"` rows (the checkbox list never
offers that category). -/
theorem empty_selection_equals_full (rows : List Rec) :
    dashboardCatFilter rows [] = dashboardCatFilter rows (all_categories rows) ∧
    dashboardGLFilter rows [] = dashboardGLFilter rows (all_gls rows) ∧
    dashboardGLFilter rows (all_gls rows) = rows := by
  refine ⟨?_, ?_, ?_⟩
  · simp [dashboardCatFilter, effectiveSel, ite_self]
  · simp [dashboardGLFilter, effectiveSel, ite_self]
  · have hmem : ∀ r ∈ rows, r.GL_Code ∈ all_gls rows := fun r hr =>
      (mem_sortBy _ _ _).mpr (List.mem_dedup.mpr (List.mem_map_of_mem Rec.GL_Code hr))
    simp only [dashboardGLFilter, effectiveSel, ite_self]
    exact List.filter_eq_self.mpr (fun r hr => by simpa using hmem r hr)

/-- C1 counterexample: two rows with the same order and the same GL code.
The by-order aggregate reports `Number of GLs` as 2 — the record count, from
`agg` with `count` on the GL column — while the group touches a single distinct GL
code, so the aggregate does not hold the count of distinct GL codes. -/
theorem order_count_not_distinct :
    order_summary [recS, recS] = [orderRowS] ∧
    orderRowS.nGLs = 2 ∧
    ((([recS, recS].filter (fun r => r.Order = orderRowS.order)).map
        Rec.GL_Code).dedup).length = 1 := by
  refine ⟨?_, ?_, ?_⟩
  · with_unfolding_all decide
  · decide
  · decide

/-- C1 (amended): the by-Order aggregation groups rows by `Order`; each
result row holds the sum of `Amount` over its group and the count of records
(rows) in the group — not the count of distinct GL codes; the result rows
are a permutation of the distinct orders and are sorted descending by the
summed amount. -/
theorem order_summary_correct (rows : List Rec) :
    (∀ g ∈ order_summary rows,
        g.total = ((rows.filter (fun r => r.Order = g.order)).map Rec.Amount).sum ∧
        g.nGLs = (rows.filter (fun r => r.Order = g.order)).length) ∧
    ((order_summary rows).map OrderRow.order).Perm ((rows.map Rec.Order).dedup) ∧
    (order_summary rows).Pairwise
      (fun a b => OrderRow.total b ≤ OrderRow.total a) := by
  refine ⟨?_, ?_, ?_⟩
  · intro g hg
    simp only [order_summary] at hg
    rw [mem_sortBy] at hg
    obtain ⟨k, hk, rfl⟩ := List.mem_map.mp hg
    exact ⟨rfl, rfl⟩
  · simp only [order_summary]
    refine ((sortBy_perm _ _).map OrderRow.order).trans ?_
    rw [List.map_map]
    have hid : List.map (OrderRow.order ∘ fun k =>
        ({ order := k
           total := ((rows.filter (fun r => r.Order = k)).map Rec.Amount).sum
           nGLs := (rows.filter (fun r => r.Order = k)).length } : OrderRow))
        ((rows.map Rec.Order).dedup) = (rows.map Rec.Order).dedup :=
      List.map_id ((rows.map Rec.Order).dedup)
    rw [hid]
  · simp only [order_summary]
    refine (pairwise_sortBy _ ?_ ?_ _).imp (fun h => of_decide_eq_true h)
    · intro a b c h1 h2
      exact decide_eq_true
        (le_trans (of_decide_eq_true h2) (of_decide_eq_true h1))
    · intro a b
      rcases le_total (OrderRow.total b) (OrderRow.total a) with h | h
      · exact Or.inl (decide_eq_true h)
      · exact Or.inr (decide_eq_true h)

/-- C1 witness: the aggregate row of `order_summary [recA, recA]` carries the
group's summed amount and its record count. -/
theorem order_summary_correct_witness :
    orderRowS.total
        = (([recS, recS].filter (fun r => r.Order = orderRowS.order)).map
            Rec.Amount).sum ∧
    orderRowS.nGLs
        = ([recS, recS].filter (fun r => r.Order = orderRowS.order)).length :=
  (order_summary_correct [recS, recS]).1 orderRowS (by with_unfolding_all decide)

/-- C5: for every description table with at least the two named columns, the
Lookup Builder returns mappings keyed by the value in the first data column;
looking up a key yields the column-1 value (display name) respectively the
column-2 value (category) of the LAST row carrying that key (last occurrence
wins silently on duplicates), and the category mapping is empty when the
table has fewer than 3 columns. -/
theorem lookup_builder_mappings (t : Table) (h2 : 2 ≤ t.ncols) :
    (∀ k, dictGet ((load_gl_descriptions_from_upload (Upload.parsed t)).1.1) k
        = (t.rows.reverse.find? (fun r => cellAt r 0 = k)).map
            (fun r => cellAt r 1)) ∧
    (3 ≤ t.ncols →
      ∀ k, dictGet ((load_gl_descriptions_from_upload (Upload.parsed t)).1.2) k
        = (t.rows.reverse.find? (fun r => cellAt r 0 = k)).map
            (fun r => cellAt r 2)) ∧
    (t.ncols < 3 →
      (load_gl_descriptions_from_upload (Upload.parsed t)).1.2 = []) := by
  have hn2 : ¬ t.ncols < 2 := not_lt.mpr h2
  refine ⟨?_, ?_, ?_⟩
  · intro k
    simp only [load_gl_descriptions_from_upload, read_excel, hn2, if_false]
    rw [dictGet_dictOfPairs, ← List.map_reverse, List.find?_map, Option.map_map]
    rfl
  · intro h3 k
    simp only [load_gl_descriptions_from_upload, read_excel, hn2, if_false,
      h3, if_true]
    rw [dictGet_dictOfPairs, ← List.map_reverse, List.find?_map, Option.map_map]
    rfl
  · intro h3
    have : ¬ 3 ≤ t.ncols := not_le.mpr h3
    simp [load_gl_descriptions_from_upload, read_excel, hn2, this]

/-- C5 witness: on a description table where the key `1` occurs in two rows,
the name lookup of `1` returns the value of the last row. -/
theorem lookup_builder_mappings_witness :
    dictGet ((load_gl_descriptions_from_upload (Upload.parsed descTableDup)).1.1)
        (Cell.num 1)
      = (descTableDup.rows.reverse.find? (fun r => cellAt r 0 = Cell.num 1)).map
          (fun r => cellAt r 1) :=
  (lookup_builder_mappings descTableDup (by decide)).1 (Cell.num 1)

/-- C2 counterexample: the dump parses but the description upload is
malformed.  The description loader shows its error and returns the benign
value `({}, {})` rather than a failure signal, and the `gl_dump is not None`
guard passes, so the pipeline still computes a normalized table. -/
theorem desc_failure_pipeline_proceeds :
    (appState (Upload.parsed dumpTableA) Upload.malformed).1
        = some [{ GL_Code := Cell.num 4010
                  GL_Description := Cell.str "Unknown GL"
                  Category := Cell.str "Uncategorized"
                  Order := Cell.num 30102204
                  Amount := 1500 }] ∧
    (appState (Upload.parsed dumpTableA) Upload.malformed).2
        = ["Error reading GL Description file"] := by
  constructor
  · decide
  · decide

/-- C2 (amended): when the dump file fails to parse, an error is shown, the
loader returns `None`, and the pipeline does not proceed (no normalized
table is computed); when the description file fails to parse, an error is
shown and the loader returns two empty mappings, but the pipeline proceeds,
resolving every row to the defaults. -/
theorem parse_failure_behavior (du dv : Upload) :
    (read_excel du = none →
      (load_gl_dump_from_upload du).1 = none ∧
      (load_gl_dump_from_upload du).2 = ["Error reading GL dump file"] ∧
      (appState du dv).1 = none) ∧
    (read_excel dv = none →
      (load_gl_descriptions_from_upload dv).1 = ([], []) ∧
      (load_gl_descriptions_from_upload dv).2
          = ["Error reading GL Description file"]) := by
  constructor
  · intro h
    refine ⟨?_, ?_, ?_⟩ <;> simp [load_gl_dump_from_upload, appState, h]
  · intro h
    constructor <;> simp [load_gl_descriptions_from_upload, h]

/-- C2 witness: with both uploads malformed, the dump loader fails and the
pipeline stops. -/
theorem parse_failure_behavior_witness :
    (load_gl_dump_from_upload Upload.malformed).1 = none ∧
    (load_gl_dump_from_upload Upload.malformed).2
        = ["Error reading GL dump file"] ∧
    (appState Upload.malformed Upload.malformed).1 = none :=
  (parse_failure_behavior Upload.malformed Upload.malformed).1 rfl

/-- C7 counterexample: with the input `"30102 "` (trailing blank) and one
record with order 30102204, the search strips the input and returns the
record, although `"30102 "` itself is not a substring of `"30102204"` — the
query does not return exactly the rows containing the raw input. -/
theorem search_uses_stripped_input :
    runSearch [recA] "30102 " = SearchOutcome.results [recA] ∧
    strContainsSub (cellToString recA.Order) "30102 " = false := by
  constructor
  · decide
  · decide

/-- C7 (amended): for every input whose whitespace-stripped form is non-empty
and free of regex metacharacters (on such patterns `str.contains` is plain
substring search), the query returns exactly the rows whose order, as a
string, contains the STRIPPED input as a case-sensitive substring anywhere;
an empty or whitespace-only input produces the user-visible input warning and
no results, and a non-matching input produces the user-visible not-found
warning rather than an error. -/
theorem search_results_characterized (rows : List Rec) (input : String) :
    (pyStrip input = "" → runSearch rows input = SearchOutcome.inputWarning) ∧
    (pyStrip input ≠ "" → isLiteralPattern (pyStrip input) = true →
      (rows.filter (searchMatches (pyStrip input)) = [] →
          runSearch rows input = SearchOutcome.noMatchWarning) ∧
      (rows.filter (searchMatches (pyStrip input)) ≠ [] →
          runSearch rows input
            = SearchOutcome.results
                (rows.filter (searchMatches (pyStrip input))))) := by
  constructor
  · intro h
    simp [runSearch, h]
  · intro h _
    constructor
    · intro hf
      simp [runSearch, h, hf]
    · intro hf
      simp [runSearch, h, hf]

/-- C7 witness: the spec's example — querying `"30102"` against orders
30102204 and 30103311 returns only the first record. -/
theorem search_results_characterized_witness :
    [recA, recB].filter (searchMatches (pyStrip "30102")) = [recA] ∧
    runSearch [recA, recB] "30102"
      = SearchOutcome.results
          ([recA, recB].filter (searchMatches (pyStrip "30102"))) :=
  ⟨by decide,
    ((search_results_characterized [recA, recB] "30102").2 (by decide)
        (by decide)).2 (by decide)⟩

/-- C9: `"Uncategorized"` never appears in the category checkbox list, and
for every checkbox selection (a subset of that list), the rows of the
category-filtered table — hence of every table, metric and aggregate derived
from it on the Dashboard Home and Query screens — never have category
`"Uncategorized"`; in particular every row of the by-GL aggregate of the
GL-filtered table carries a different category. -/
theorem uncategorized_never_selected (rows : List Rec) (sel selG : List Cell)
    (hsel : ∀ c ∈ sel, c ∈ all_categories rows) :
    (Cell.str "Uncategorized" ∉ all_categories rows) ∧
    (∀ r ∈ dashboardCatFilter rows sel,
        r.Category ≠ Cell.str "Uncategorized") ∧
    (∀ g ∈ gl_summary (dashboardGLFilter (dashboardCatFilter rows sel) selG),
        g.cat ≠ Cell.str "Uncategorized") := by
  have hall : ∀ c ∈ all_categories rows, c ≠ Cell.str "Uncategorized" := by
    intro c hc hcu
    simp only [all_categories, sortCells, mem_sortBy] at hc
    rcases List.mem_filter.mp hc with ⟨-, h2⟩
    rw [hcu] at h2
    simp at h2
  have hcat : ∀ r ∈ dashboardCatFilter rows sel,
      r.Category ≠ Cell.str "Uncategorized" := by
    intro r hr
    have hc' : r.Category ∈ effectiveSel sel (all_categories rows) :=
      of_decide_eq_true (List.mem_filter.mp hr).2
    simp only [effectiveSel] at hc'
    by_cases hse : sel = []
    · rw [if_pos hse] at hc'
      exact hall r.Category hc'
    · rw [if_neg hse] at hc'
      exact hall r.Category (hsel r.Category hc')
  refine ⟨fun h => hall _ h rfl, hcat, ?_⟩
  intro g hg
  simp only [gl_summary] at hg
  rw [mem_sortBy] at hg
  obtain ⟨k, hk, rfl⟩ := List.mem_map.mp hg
  obtain ⟨r, hr, rfl⟩ := List.mem_map.mp (List.mem_dedup.mp hk)
  exact hcat r (List.mem_filter.mp hr).1

/-- C9 witness: with the table `[recA, recU]` and the selection consisting of
the category `"Travel"`, the record `recA` passing the filter is not
uncategorized. -/
theorem uncategorized_never_selected_witness :
    recA.Category ≠ Cell.str "Uncategorized" :=
  (uncategorized_never_selected [recA, recU] [Cell.str "Travel"] []
      (by decide)).2.1 recA (by decide)

end GLDash
